import Mathlib

/-!
Shallow embedding of the feather-engine core: the layer scheduler, the
controller/event dispatch, the cooperative sleep timer (runtime.c, scene.c,
layer.h, controller.h) and the physics controller (physics.c), together with
theorems about their scheduling, dispatch, sleep and collision behaviour.
Machine integers are modelled as Nat/Int (the reasoned quantities stay far from
the wrap-around range) and C doubles as exact rationals.
-/

namespace Feather

/-- Layer record from layer.h: a scheduled update unit with a user supplied
name, a signed scheduling priority and the sleep deadline uLastSleep used by the
cooperative sleep timer. The function pointer fRun is not represented: the
claims below concern scheduler bookkeeping, and the embedded update tick treats
the body of every layer as inert with respect to the scene state (the spec
scenario uses a no-op body). -/
structure tLayer where
  sName : String
  iPriority : Int
  uLastSleep : Nat
deriving Repr, DecidableEq

/-- Layer portion of errEngineUpdateHandle (runtime.c): for every layer in list
order, a layer with nonzero priority has its update function invoked and then,
when its priority is negative, the priority is incremented toward zero; a layer
whose priority is already zero is removed from the sequence instead. The result
is the new layer list together with the pre-tick snapshots of the invoked
layers, in invocation order. -/
def layersUpdateTick : List tLayer → List tLayer × List tLayer
  | [] => ([], [])
  | l :: ls =>
    let rest := layersUpdateTick ls
    if l.iPriority = 0 then rest
    else if l.iPriority < 0 then
      ({ l with iPriority := l.iPriority + 1 } :: rest.1, l :: rest.2)
    else
      (l :: rest.1, l :: rest.2)

/-- Iterates n update ticks of the layer scheduler. -/
def layersTicks : Nat → List tLayer → List tLayer
  | 0, ls => ls
  | n + 1, ls => layersTicks n (layersUpdateTick ls).1

/-- Total number of invocations of layers named s across the first n update
ticks. -/
def layerInvocations : Nat → List tLayer → String → Nat
  | 0, _, _ => 0
  | n + 1, ls, s =>
      (layersUpdateTick ls).2.countP (fun l => l.sName == s) +
        layerInvocations n (layersUpdateTick ls).1 s

theorem layersUpdateTick_append (xs ys : List tLayer) :
    layersUpdateTick (xs ++ ys) =
      ((layersUpdateTick xs).1 ++ (layersUpdateTick ys).1,
       (layersUpdateTick xs).2 ++ (layersUpdateTick ys).2) := by
  induction xs with
  | nil => simp [layersUpdateTick]
  | cons l ls ih =>
    simp only [List.cons_append, layersUpdateTick]
    by_cases h0 : l.iPriority = 0 <;> by_cases hneg : l.iPriority < 0 <;>
      simp [h0, hneg, ih]

theorem layersUpdateTick_nil : layersUpdateTick [] = ([], []) := rfl

theorem layersTicks_nil (n : Nat) : layersTicks n [] = [] := by
  induction n with
  | zero => rfl
  | succ n ih => simpa [layersTicks, layersUpdateTick] using ih

theorem layerInvocations_nil (n : Nat) (s : String) :
    layerInvocations n [] s = 0 := by
  induction n with
  | zero => rfl
  | succ n ih => simpa [layerInvocations, layersUpdateTick] using ih

theorem layersTicks_append (n : Nat) (xs ys : List tLayer) :
    layersTicks n (xs ++ ys) = layersTicks n xs ++ layersTicks n ys := by
  induction n generalizing xs ys with
  | zero => rfl
  | succ n ih => simp [layersTicks, layersUpdateTick_append, ih]

theorem layerInvocations_append (n : Nat) (xs ys : List tLayer) (s : String) :
    layerInvocations n (xs ++ ys) s =
      layerInvocations n xs s + layerInvocations n ys s := by
  induction n generalizing xs ys with
  | zero => rfl
  | succ n ih =>
    simp [layerInvocations, layersUpdateTick_append, List.countP_append, ih]
    omega

theorem layersUpdateTick_single_neg (s : String) (d : Nat) (p : Int)
    (hp : p < 0) :
    layersUpdateTick [⟨s, p, d⟩] = ([⟨s, p + 1, d⟩], [⟨s, p, d⟩]) := by
  have hne : ¬ p = 0 := by omega
  simp [layersUpdateTick, hne, hp]

theorem layersUpdateTick_single_zero (s : String) (d : Nat) :
    layersUpdateTick [⟨s, 0, d⟩] = ([], []) := by
  simp [layersUpdateTick]

theorem layersUpdateTick_absent {s : String} {ls : List tLayer}
    (h : ∀ l ∈ ls, l.sName ≠ s) :
    (∀ l ∈ (layersUpdateTick ls).1, l.sName ≠ s) ∧
      (layersUpdateTick ls).2.countP (fun l => l.sName == s) = 0 := by
  induction ls with
  | nil => simp [layersUpdateTick]
  | cons l ls ih =>
    have hl : l.sName ≠ s := h l (by simp)
    have hls : ∀ x ∈ ls, x.sName ≠ s := fun x hx => h x (by simp [hx])
    obtain ⟨ih1, ih2⟩ := ih hls
    simp only [layersUpdateTick]
    by_cases h0 : l.iPriority = 0
    · simp only [if_pos h0]
      exact ⟨ih1, ih2⟩
    · by_cases hneg : l.iPriority < 0
      · simp only [if_neg h0, if_pos hneg]
        refine ⟨?_, ?_⟩
        · intro x hx
          rcases List.mem_cons.1 hx with rfl | hx
          · exact hl
          · exact ih1 x hx
        · simp [List.countP_cons, ih2, hl]
      · simp only [if_neg h0, if_neg hneg]
        refine ⟨?_, ?_⟩
        · intro x hx
          rcases List.mem_cons.1 hx with rfl | hx
          · exact hl
          · exact ih1 x hx
        · simp [List.countP_cons, ih2, hl]

theorem layerInvocations_absent {s : String} (n : Nat) {ls : List tLayer}
    (h : ∀ l ∈ ls, l.sName ≠ s) :
    layerInvocations n ls s = 0 ∧ ∀ l ∈ layersTicks n ls, l.sName ≠ s := by
  induction n generalizing ls with
  | zero => exact ⟨rfl, h⟩
  | succ n ih =>
    obtain ⟨h1, h2⟩ := layersUpdateTick_absent h
    obtain ⟨ih1, ih2⟩ := ih h1
    exact ⟨by simp [layerInvocations, h2, ih1], by simpa [layersTicks] using ih2⟩

theorem layersTicks_single_neg (s : String) (d : Nat) :
    ∀ n N : Nat, layersTicks n [⟨s, -(N : Int), d⟩] =
      if n ≤ N then [⟨s, -((N - n : Nat) : Int), d⟩] else [] := by
  intro n
  induction n with
  | zero => intro N; simp [layersTicks]
  | succ n ih =>
    intro N
    cases N with
    | zero =>
      show layersTicks n (layersUpdateTick [⟨s, -((0 : Nat) : Int), d⟩]).1 = _
      rw [show (-((0 : Nat) : Int)) = 0 by simp, layersUpdateTick_single_zero,
        layersTicks_nil]
      simp
    | succ M =>
      have hlt : -((M + 1 : Nat) : Int) < 0 := by push_cast; omega
      have hval : -((M + 1 : Nat) : Int) + 1 = -(M : Int) := by push_cast; omega
      show layersTicks n (layersUpdateTick [⟨s, -((M + 1 : Nat) : Int), d⟩]).1 = _
      rw [layersUpdateTick_single_neg s d _ hlt]
      simp only
      rw [hval, ih M]
      by_cases hn : n ≤ M
      · have hn2 : n + 1 ≤ M + 1 := by omega
        rw [if_pos hn, if_pos hn2]
        have heq : M - n = M + 1 - (n + 1) := by omega
        rw [heq]
      · have hn2 : ¬ n + 1 ≤ M + 1 := by omega
        rw [if_neg hn, if_neg hn2]

theorem layerInvocations_single_neg (s : String) (d : Nat) :
    ∀ n N : Nat, layerInvocations n [⟨s, -(N : Int), d⟩] s = min n N := by
  intro n
  induction n with
  | zero => intro N; simp [layerInvocations]
  | succ n ih =>
    intro N
    cases N with
    | zero =>
      show (layersUpdateTick [⟨s, -((0 : Nat) : Int), d⟩]).2.countP _ +
        layerInvocations n (layersUpdateTick [⟨s, -((0 : Nat) : Int), d⟩]).1 s = _
      rw [show (-((0 : Nat) : Int)) = 0 by simp, layersUpdateTick_single_zero]
      simp [layerInvocations_nil]
    | succ M =>
      have hlt : -((M + 1 : Nat) : Int) < 0 := by push_cast; omega
      have hval : -((M + 1 : Nat) : Int) + 1 = -(M : Int) := by push_cast; omega
      show (layersUpdateTick [⟨s, -((M + 1 : Nat) : Int), d⟩]).2.countP
          (fun l => l.sName == s) +
        layerInvocations n (layersUpdateTick [⟨s, -((M + 1 : Nat) : Int), d⟩]).1 s
          = _
      rw [layersUpdateTick_single_neg s d _ hlt]
      simp only
      rw [hval, ih M]
      simp [List.countP_cons]
      omega

/-- C1: a layer registered with priority -N (N ≥ 1) is invoked exactly N times
across successive update ticks - after n ticks its total invocation count is
min n N, hence exactly N once n ≥ N - and once the post-increment priority has
reached zero the scheduler removes it: from tick N + 1 onward the layer is
absent from the scene layer sequence, so it is never invoked again. -/
theorem layer_negPriority_runs_exactly_N_times
    (pre post : List tLayer) (s : String) (d : Nat) (N : Nat) (_hN : 1 ≤ N)
    (hpre : ∀ l ∈ pre, l.sName ≠ s) (hpost : ∀ l ∈ post, l.sName ≠ s) :
    (∀ n, layerInvocations n (pre ++ ⟨s, -(N : Int), d⟩ :: post) s = min n N) ∧
    (∀ n, N + 1 ≤ n →
      ∀ l ∈ layersTicks n (pre ++ ⟨s, -(N : Int), d⟩ :: post), l.sName ≠ s) := by
  constructor
  · intro n
    have hsplit : pre ++ tLayer.mk s (-(N : Int)) d :: post =
        pre ++ ([⟨s, -(N : Int), d⟩] ++ post) := by simp
    rw [hsplit, layerInvocations_append, layerInvocations_append,
      (layerInvocations_absent n hpre).1, (layerInvocations_absent n hpost).1,
      layerInvocations_single_neg]
    omega
  · intro n hn l hl
    have hsplit : pre ++ tLayer.mk s (-(N : Int)) d :: post =
        pre ++ ([⟨s, -(N : Int), d⟩] ++ post) := by simp
    rw [hsplit, layersTicks_append, layersTicks_append] at hl
    rcases List.mem_append.1 hl with h | h
    · exact (layerInvocations_absent n hpre).2 l h
    rcases List.mem_append.1 h with h | h
    · rw [layersTicks_single_neg] at h
      have : ¬ n ≤ N := by omega
      simp [this] at h
    · exact (layerInvocations_absent n hpost).2 l h

/-- Witness for C1: a scene holding one layer of priority -2, observed across
three ticks, is invoked exactly twice and has disappeared from the layer
sequence. -/
theorem layer_negPriority_runs_exactly_N_times_witness :
    layerInvocations 3 [⟨"L", -(2 : Int), 0⟩] "L" = min 3 2 ∧
    ∀ l ∈ layersTicks 3 [⟨"L", -(2 : Int), 0⟩], l.sName ≠ "L" := by
  have h := layer_negPriority_runs_exactly_N_times [] [] "L" 0 2 (by decide)
    (by simp) (by simp)
  exact ⟨h.1 3, h.2 3 (by decide)⟩

/-- Comparator bLayerCmp from scene.c: a strict less-than on layer priorities,
handed to tll_sort by errEngineInit and vRuntimeSwapScene. -/
def bLayerCmp (l1 l2 : tLayer) : Bool :=
  decide (l1.iPriority < l2.iPriority)

/-- vRuntimeSwapScene (runtime.c): installs the new scene and sorts its layer
list with tll_sort under bLayerCmp; errEngineInit performs the same sort on the
initial scene before the first tick. tll_sort is a stable merge sort in which
element a may precede b exactly when b is not strictly smaller, that is when
not bLayerCmp b a. Only the layer list is modelled. -/
def vRuntimeSwapScene (ls : List tLayer) : List tLayer :=
  ls.mergeSort (fun a b => ! bLayerCmp b a)

theorem layersUpdateTick_invoked_eq_filter (ls : List tLayer) :
    (layersUpdateTick ls).2 = ls.filter (fun l => ! l.iPriority == 0) := by
  induction ls with
  | nil => rfl
  | cons l ls ih =>
    simp only [layersUpdateTick, List.filter_cons]
    by_cases h0 : l.iPriority = 0 <;> by_cases hneg : l.iPriority < 0 <;>
      simp [h0, hneg, ih]

/-- C7: on engine initialization and on every scene swap the layer sequence is
sorted into ascending priority order; consequently every negative (init-only)
priority layer is ordered before every positive (steady-state) one, and in an
update tick on the sorted sequence no positive-priority layer is invoked before
a negative-priority layer. -/
theorem swapScene_sorts_layers_ascending (ls : List tLayer) :
    List.Pairwise (fun a b => a.iPriority ≤ b.iPriority) (vRuntimeSwapScene ls) ∧
    List.Pairwise (fun a b => ¬ (0 < a.iPriority ∧ b.iPriority < 0))
      ((layersUpdateTick (vRuntimeSwapScene ls)).2) := by
  have hsorted : List.Pairwise (fun a b => (! bLayerCmp b a) = true)
      (vRuntimeSwapScene ls) := by
    apply List.sorted_mergeSort
    · intro a b c hab hbc
      simp only [bLayerCmp, Bool.not_eq_eq_eq_not, Bool.not_true,
        decide_eq_false_iff_not, not_lt] at hab hbc ⊢
      omega
    · intro a b
      simp only [bLayerCmp, Bool.or_eq_true, Bool.not_eq_eq_eq_not,
        Bool.not_true, decide_eq_false_iff_not, not_lt]
      omega
  have hle : List.Pairwise (fun a b => a.iPriority ≤ b.iPriority)
      (vRuntimeSwapScene ls) := by
    refine hsorted.imp ?_
    intro a b hab
    simp only [bLayerCmp, Bool.not_eq_eq_eq_not, Bool.not_true,
      decide_eq_false_iff_not, not_lt] at hab
    exact hab
  refine ⟨hle, ?_⟩
  have hsub : ((layersUpdateTick (vRuntimeSwapScene ls)).2).Sublist
      (vRuntimeSwapScene ls) := by
    rw [layersUpdateTick_invoked_eq_filter]
    exact List.filter_sublist _
  exact (List.Pairwise.sublist hsub hle).imp (by intro a b hab hcon; omega)

/-- Event record standing for SDL_Event: an event type tag together with an
abstract payload distinguishing individual events. -/
structure tEvent where
  eType : Nat
  ePayload : Nat
deriving Repr, DecidableEq

/-- Controller record from controller.h: handler reference omitted (the claims
concern the dispatch bookkeeping, not user handler bodies), subscribed event
type, identifier, last observed raw event, minimum re-invocation delay,
timestamp of the last invocation and the pending flag named invoke. -/
structure tController where
  sdlEventType : Nat
  uControllerID : Nat
  sdlEvent : tEvent
  uDelay : Nat
  uControllerLastCalled : Nat
  invoke : Bool
deriving Repr, DecidableEq

/-- Loop body of the controller dispatch in errEngineUpdateHandle (runtime.c):
at current time now, a controller is fired only when its invoke flag is set and
uControllerLastCalled + uDelay < now; firing clears the invoke flag before the
handler runs and stamps uControllerLastCalled with the current time afterwards.
The result pairs the post-dispatch controller with whether the handler was
invoked; the handler body itself is treated as inert on the controller record
(self re-arming is modelled separately where needed). -/
def updateHandleController (now : Nat) (c : tController) : tController × Bool :=
  if c.invoke then
    if c.uControllerLastCalled + c.uDelay < now then
      ({ c with invoke := false, uControllerLastCalled := now }, true)
    else (c, false)
  else (c, false)

/-- C2: the update-tick dispatch invokes a controller handler only when the
pending flag is set and now ≥ lastInvoked + delay (the code requires the strict
inequality lastInvoked + delay < now, which implies the claimed bound); on
invocation the pending flag is cleared and lastInvoked is stamped with the
current time, so the controller fires at most once per pending marking - a
re-dispatch of the resulting state never fires - and it never fires while
now < lastInvoked + delay. -/
theorem controller_fires_only_pending_and_after_delay (now : Nat)
    (c : tController) :
    ((updateHandleController now c).2 = true →
      c.invoke = true ∧
      c.uControllerLastCalled + c.uDelay ≤ now ∧
      (updateHandleController now c).1.invoke = false ∧
      (updateHandleController now c).1.uControllerLastCalled = now ∧
      ∀ now2, (updateHandleController now2 (updateHandleController now c).1).2
        = false) ∧
    (now < c.uControllerLastCalled + c.uDelay →
      (updateHandleController now c).2 = false) := by
  constructor
  · intro hfired
    by_cases hinv : c.invoke
    · by_cases hdel : c.uControllerLastCalled + c.uDelay < now
      · refine ⟨hinv, by omega, ?_, ?_, ?_⟩
        · simp [updateHandleController, hinv, hdel]
        · simp [updateHandleController, hinv, hdel]
        · intro now2
          simp [updateHandleController, hinv, hdel]
      · simp [updateHandleController, hinv, hdel] at hfired
    · simp [updateHandleController, hinv] at hfired
  · intro hlt
    by_cases hinv : c.invoke
    · have hdel : ¬ c.uControllerLastCalled + c.uDelay < now := by omega
      simp [updateHandleController, hinv, hdel]
    · simp [updateHandleController, hinv]

/-- Witness for C2 at a concrete controller: a pending controller past its
delay fires and comes back with the flag cleared and the timestamp updated, and
a pending controller still inside its delay window does not fire. -/
theorem controller_fires_only_pending_and_after_delay_witness :
    (updateHandleController 7 ⟨1, 0, ⟨0, 0⟩, 3, 2, true⟩).1.invoke = false ∧
    (updateHandleController 7 ⟨1, 0, ⟨0, 0⟩, 3, 2, true⟩).1.uControllerLastCalled
      = 7 ∧
    (updateHandleController 4 ⟨1, 0, ⟨0, 0⟩, 3, 2, true⟩).2 = false := by
  have h1 := (controller_fires_only_pending_and_after_delay 7
    ⟨1, 0, ⟨0, 0⟩, 3, 2, true⟩).1 (by decide)
  have h2 := (controller_fires_only_pending_and_after_delay 4
    ⟨1, 0, ⟨0, 0⟩, 3, 2, true⟩).2 (by decide)
  exact ⟨h1.2.2.1, h1.2.2.2.1, h2⟩

/-- Loop body of the per-event controller marking in errEngineInputHandle
(runtime.c): for a polled event, a controller whose invoke flag is not set has
its invoke flag assigned the comparison of its subscribed event type with the
event type, and its stored raw event assigned the polled event; a controller
whose invoke flag is already set is left untouched. -/
def inputMarkController (ev : tEvent) (c : tController) : tController :=
  if ! c.invoke then
    { c with invoke := decide (c.sdlEventType = ev.eType), sdlEvent := ev }
  else c

/-- errEngineInputHandle (runtime.c) restricted to one polled non-quit event:
the controller list of the scene is traversed and every controller is marked by
inputMarkController. -/
def errEngineInputHandle (ev : tEvent) : List tController → List tController
  | [] => []
  | c :: cs => inputMarkController ev c :: errEngineInputHandle ev cs

/-- C10: during the input phase, for each polled event, every controller whose
pending flag is false has its stored event payload overwritten by that event -
also when the event type does not match its subscription, in which case the
pending flag stays false - while a controller whose pending flag is already
true keeps both the flag and its previously stored payload unchanged. -/
theorem input_overwrites_payload_of_nonpending (ev : tEvent) (c : tController)
    (cs : List tController) :
    errEngineInputHandle ev cs = cs.map (inputMarkController ev) ∧
    (c.invoke = false →
      (inputMarkController ev c).sdlEvent = ev ∧
      (inputMarkController ev c).invoke = decide (c.sdlEventType = ev.eType)) ∧
    (c.invoke = false → c.sdlEventType ≠ ev.eType →
      (inputMarkController ev c).sdlEvent = ev ∧
      (inputMarkController ev c).invoke = false) ∧
    (c.invoke = true → inputMarkController ev c = c) := by
  refine ⟨?_, ?_, ?_, ?_⟩
  · induction cs with
    | nil => rfl
    | cons x xs ih => simp [errEngineInputHandle, ih]
  · intro hinv
    simp [inputMarkController, hinv]
  · intro hinv hne
    simp [inputMarkController, hinv, hne]
  · intro hinv
    simp [inputMarkController, hinv]

/-- Witness for C10: a non-pending controller subscribed to event type 1
receives a polled event of the mismatching type 2 - the stored payload is
overwritten and the flag stays false - while a pending controller is untouched
by the same event. -/
theorem input_overwrites_payload_of_nonpending_witness :
    (inputMarkController ⟨2, 9⟩ ⟨1, 0, ⟨0, 0⟩, 0, 0, false⟩).sdlEvent = ⟨2, 9⟩ ∧
    (inputMarkController ⟨2, 9⟩ ⟨1, 0, ⟨0, 0⟩, 0, 0, false⟩).invoke = false ∧
    inputMarkController ⟨2, 9⟩ ⟨1, 0, ⟨5, 5⟩, 0, 0, true⟩ =
      ⟨1, 0, ⟨5, 5⟩, 0, 0, true⟩ := by
  have h1 := (input_overwrites_payload_of_nonpending ⟨2, 9⟩
    ⟨1, 0, ⟨0, 0⟩, 0, 0, false⟩ []).2.2.1 (by decide) (by decide)
  have h2 := (input_overwrites_payload_of_nonpending ⟨2, 9⟩
    ⟨1, 0, ⟨5, 5⟩, 0, 0, true⟩ []).2.2.2 (by decide)
  exact ⟨h1.1, h1.2, h2⟩

/-- vSceneRemoveController (scene.c): traverses the scene controller list and
removes every entry whose uControllerID equals the requested id; nothing
happens for entries with other ids. -/
def vSceneRemoveController : List tController → Nat → List tController
  | [], _ => []
  | c :: cs, uid =>
    if c.uControllerID = uid then vSceneRemoveController cs uid
    else c :: vSceneRemoveController cs uid

/-- C8: controller removal is idempotent - removing an id that is absent from
the scene controller list leaves the list unchanged, and removing the same id
twice has the same effect on the list as removing it once. -/
theorem removeController_idempotent (cs : List tController) (uid : Nat) :
    (uid ∉ cs.map tController.uControllerID →
      vSceneRemoveController cs uid = cs) ∧
    vSceneRemoveController (vSceneRemoveController cs uid) uid =
      vSceneRemoveController cs uid := by
  constructor
  · intro habs
    induction cs with
    | nil => rfl
    | cons c cs ih =>
      simp only [List.map_cons, List.mem_cons] at habs
      push_neg at habs
      have hne : ¬ c.uControllerID = uid := fun h => habs.1 h.symm
      simp [vSceneRemoveController, hne, ih habs.2]
  · induction cs with
    | nil => rfl
    | cons c cs ih =>
      by_cases h : c.uControllerID = uid <;>
        simp [vSceneRemoveController, h, ih]

/-- Witness for C8: removing the absent id 2 from a one-controller list leaves
the list unchanged. -/
theorem removeController_idempotent_witness :
    vSceneRemoveController [⟨1, 1, ⟨0, 0⟩, 0, 0, false⟩] 2 =
      [⟨1, 1, ⟨0, 0⟩, 0, 0, false⟩] :=
  (removeController_idempotent [⟨1, 1, ⟨0, 0⟩, 0, 0, false⟩] 2).1 (by decide)

/-- Sleep check __vFeatherCheckLayerSleepMs (runtime.c): walks the scene layer
list for the first layer with the given name (the C code compares the interned
name pointers, modelled as string equality); a zero deadline reports 0
(NotSleeping), a deadline strictly below the current time is reset to zero and
reports -1 (JustElapsed), and otherwise 1 (StillWaiting) is reported. A missing
layer logs a warning and reports -1. Returns the report together with the
updated layer list. -/
def __vFeatherCheckLayerSleepMs (now : Nat) (sLayerName : String) :
    List tLayer → Int × List tLayer
  | [] => (-1, [])
  | l :: ls =>
    if l.sName = sLayerName then
      if l.uLastSleep = 0 then (0, l :: ls)
      else if now > l.uLastSleep then (-1, { l with uLastSleep := 0 } :: ls)
      else (1, l :: ls)
    else
      let rest := __vFeatherCheckLayerSleepMs now sLayerName ls
      (rest.1, l :: rest.2)

/-- Sleep arming __vFeatherSleepLayerMs (runtime.c): sets the deadline of the
first layer with the given name to now + ms; a missing layer is a logged
no-op. -/
def __vFeatherSleepLayerMs (now ms : Nat) (sLayerName : String) :
    List tLayer → List tLayer
  | [] => []
  | l :: ls =>
    if l.sName = sLayerName then { l with uLastSleep := now + ms } :: ls
    else l :: __vFeatherSleepLayerMs now ms sLayerName ls

theorem checkLayerSleep_append (now : Nat) (s : String) (pre ls : List tLayer)
    (hpre : ∀ l ∈ pre, l.sName ≠ s) :
    __vFeatherCheckLayerSleepMs now s (pre ++ ls) =
      ((__vFeatherCheckLayerSleepMs now s ls).1,
        pre ++ (__vFeatherCheckLayerSleepMs now s ls).2) := by
  induction pre with
  | nil => simp
  | cons l pre ih =>
    have hl : ¬ l.sName = s := hpre l (by simp)
    have hrest : ∀ x ∈ pre, x.sName ≠ s := fun x hx => hpre x (by simp [hx])
    simp [__vFeatherCheckLayerSleepMs, hl, ih hrest]

/-- C3 counterexample: a layer with deadline 5 queried at now = 5 - so with
now ≥ deadline - is reported as StillWaiting (1) with the deadline left armed,
not as JustElapsed (-1) as the claim requires. -/
theorem checkLayerSleep_at_deadline_still_waiting :
    5 ≥ 5 ∧
    (__vFeatherCheckLayerSleepMs 5 "L" [⟨"L", 1, 5⟩]).1 = 1 ∧
    (__vFeatherCheckLayerSleepMs 5 "L" [⟨"L", 1, 5⟩]).2 = [⟨"L", 1, 5⟩] ∧
    (1 : Int) ≠ -1 := by
  decide

/-- C3 amended: the sleep check reports NotSleeping (0) whenever the deadline
is 0; StillWaiting (1) for every query with now ≤ deadline while the deadline
is armed; and JustElapsed (-1) exactly once, on the first query with now
strictly greater than the deadline, at which point the deadline is reset to 0
so every further query reports NotSleeping again. -/
theorem checkLayerSleep_round_trip (pre post : List tLayer) (s : String)
    (p : Int) (d : Nat) (hpre : ∀ l ∈ pre, l.sName ≠ s) (now : Nat) :
    (d = 0 →
      __vFeatherCheckLayerSleepMs now s (pre ++ ⟨s, p, d⟩ :: post) =
        (0, pre ++ ⟨s, p, d⟩ :: post)) ∧
    (d ≠ 0 → now ≤ d →
      __vFeatherCheckLayerSleepMs now s (pre ++ ⟨s, p, d⟩ :: post) =
        (1, pre ++ ⟨s, p, d⟩ :: post)) ∧
    (d ≠ 0 → d < now →
      __vFeatherCheckLayerSleepMs now s (pre ++ ⟨s, p, d⟩ :: post) =
        (-1, pre ++ ⟨s, p, 0⟩ :: post) ∧
      ∀ now2, (__vFeatherCheckLayerSleepMs now2 s
        (pre ++ ⟨s, p, 0⟩ :: post)).1 = 0) := by
  refine ⟨?_, ?_, ?_⟩
  · intro hd
    rw [checkLayerSleep_append now s pre _ hpre]
    simp [__vFeatherCheckLayerSleepMs, hd]
  · intro hd hnow
    rw [checkLayerSleep_append now s pre _ hpre]
    have hngt : ¬ now > d := by omega
    simp [__vFeatherCheckLayerSleepMs, hd, hngt]
  · intro hd hnow
    constructor
    · rw [checkLayerSleep_append now s pre _ hpre]
      simp [__vFeatherCheckLayerSleepMs, hd, hnow]
    · intro now2
      rw [checkLayerSleep_append now2 s pre _ hpre]
      simp [__vFeatherCheckLayerSleepMs]

/-- Witness for C3 amended: a layer armed with deadline 5 reports StillWaiting
at time 5, JustElapsed with the deadline reset at time 6, and NotSleeping on a
later query. -/
theorem checkLayerSleep_round_trip_witness :
    __vFeatherCheckLayerSleepMs 5 "L" [⟨"L", 1, 5⟩] = (1, [⟨"L", 1, 5⟩]) ∧
    __vFeatherCheckLayerSleepMs 6 "L" [⟨"L", 1, 5⟩] = (-1, [⟨"L", 1, 0⟩]) ∧
    (__vFeatherCheckLayerSleepMs 7 "L" [⟨"L", 1, 0⟩]).1 = 0 := by
  have h5 := checkLayerSleep_round_trip [] [] "L" 1 5 (by simp) 5
  have h6 := checkLayerSleep_round_trip [] [] "L" 1 5 (by simp) 6
  exact ⟨h5.2.1 (by decide) (by decide),
    (h6.2.2 (by decide) (by decide)).1,
    (h6.2.2 (by decide) (by decide)).2 7⟩

/-- vRuntimeUnsleepCurrentLayer (runtime.c): tRuntimeGetCurrentLayer resolves
the layer stored at index uCurrentRunningLayerId of the scene layer list, and
the boolean argument ignoreNextSleep is assigned directly to that layer field
uLastSleep (a bool stored into a uint32: 1 for true, 0 for false); an
unresolvable index is a no-op. -/
def vRuntimeUnsleepCurrentLayer : Nat → Bool → List tLayer → List tLayer
  | _, _, [] => []
  | 0, b, l :: ls => { l with uLastSleep := if b then 1 else 0 } :: ls
  | i + 1, b, l :: ls => l :: vRuntimeUnsleepCurrentLayer i b ls

theorem unsleepCurrentLayer_append (b : Bool) (pre : List tLayer) (l : tLayer)
    (post : List tLayer) :
    vRuntimeUnsleepCurrentLayer pre.length b (pre ++ l :: post) =
      pre ++ { l with uLastSleep := if b then 1 else 0 } :: post := by
  induction pre with
  | nil => rfl
  | cons x pre ih => simp [vRuntimeUnsleepCurrentLayer, ih]

/-- C9: UnsleepCurrentLayer writes the boolean value itself into the deadline
of the layer at the currently-running index: with ignoreNextSleep = false the
deadline becomes 0 and the next sleep check reports NotSleeping, while with
ignoreNextSleep = true the deadline becomes 1 - not the current time - so the
next sleep check reports JustElapsed exactly when the current tick count
exceeds 1. -/
theorem unsleep_writes_bool_into_deadline (pre post : List tLayer) (s : String)
    (p : Int) (d : Nat) (b : Bool) (hpre : ∀ l ∈ pre, l.sName ≠ s) :
    vRuntimeUnsleepCurrentLayer pre.length b (pre ++ ⟨s, p, d⟩ :: post) =
      pre ++ ⟨s, p, if b then 1 else 0⟩ :: post ∧
    (b = false → ∀ now, (__vFeatherCheckLayerSleepMs now s
      (vRuntimeUnsleepCurrentLayer pre.length b
        (pre ++ ⟨s, p, d⟩ :: post))).1 = 0) ∧
    (b = true → ∀ now, ((__vFeatherCheckLayerSleepMs now s
      (vRuntimeUnsleepCurrentLayer pre.length b
        (pre ++ ⟨s, p, d⟩ :: post))).1 = -1 ↔ 1 < now)) := by
  have hw := unsleepCurrentLayer_append b pre ⟨s, p, d⟩ post
  refine ⟨hw, ?_, ?_⟩
  · intro hb now
    rw [hw, hb, checkLayerSleep_append now s pre _ hpre]
    simp [__vFeatherCheckLayerSleepMs]
  · intro hb now
    rw [hw, hb, checkLayerSleep_append now s pre _ hpre]
    by_cases hgt : now > 1
    · simp [__vFeatherCheckLayerSleepMs, hgt]
    · simp [__vFeatherCheckLayerSleepMs, hgt]

/-- Witness for C9: with ignoreNextSleep = true the deadline of the layer at
index 0 becomes literally 1, the sleep check at tick count 2 reports
JustElapsed, and the check at tick count 1 does not; with false the deadline
becomes 0 and the check reports NotSleeping. -/
theorem unsleep_writes_bool_into_deadline_witness :
    vRuntimeUnsleepCurrentLayer 0 true [⟨"L", 1, 77⟩] = [⟨"L", 1, 1⟩] ∧
    (__vFeatherCheckLayerSleepMs 2 "L"
      (vRuntimeUnsleepCurrentLayer 0 true [⟨"L", 1, 77⟩])).1 = -1 ∧
    ¬ (__vFeatherCheckLayerSleepMs 1 "L"
      (vRuntimeUnsleepCurrentLayer 0 true [⟨"L", 1, 77⟩])).1 = -1 ∧
    (__vFeatherCheckLayerSleepMs 9 "L"
      (vRuntimeUnsleepCurrentLayer 0 false [⟨"L", 1, 77⟩])).1 = 0 := by
  have ht := unsleep_writes_bool_into_deadline [] [] "L" 1 77 true (by simp)
  have hf := unsleep_writes_bool_into_deadline [] [] "L" 1 77 false (by simp)
  refine ⟨ht.1, (ht.2.2 rfl 2).mpr (by decide), ?_, hf.2.1 rfl 9⟩
  intro hcon
  exact absurd ((ht.2.2 rfl 1).mp hcon) (by decide)

/-- 2D transform context from context2d.h used by tRect: position and scale
(rotation does not enter the embedded claims). C doubles are modelled as exact
rationals. -/
structure tContext2D where
  fX : Rat
  fY : Rat
  fScaleX : Rat
  fScaleY : Rat
deriving Repr, DecidableEq

/-- Current frame region dimensions of a rect (rect.h). -/
structure tFrame where
  uWidth : Nat
  uHeight : Nat
deriving Repr, DecidableEq

/-- Drawable rect (rect.h) reduced to the fields the physics controller
reads: transform context and frame size. -/
structure tRect where
  tCtx : tContext2D
  tFr : tFrame
deriving Repr, DecidableEq

/-- Force record from physics.h: direction vector, speed, speed bound and the
repeat counter iTimes. -/
structure tForce where
  x : Rat
  y : Rat
  dSpeed : Rat
  dMaxSpeed : Rat
  iTimes : Int
deriving Repr, DecidableEq

/-- vApplyForce (physics.c): displaces the rect position by direction times
speed. -/
def vApplyForce (r : tRect) (f : tForce) : tRect :=
  { r with tCtx := { r.tCtx with
      fX := r.tCtx.fX + f.x * f.dSpeed,
      fY := r.tCtx.fY + f.y * f.dSpeed } }

/-- Force loop of the DYNAMIC branch of __vPhysicsControllerInternal
(physics.c): every pending force is applied to the rect, then a force whose
iTimes is 0 is removed, a force with positive iTimes is decremented, and a
force with negative iTimes is kept untouched. -/
def integrateForces : tRect → List tForce → tRect × List tForce
  | r, [] => (r, [])
  | r, f :: fs =>
    let r1 := vApplyForce r f
    if f.iTimes = 0 then integrateForces r1 fs
    else
      let f1 := if 0 < f.iTimes then { f with iTimes := f.iTimes - 1 } else f
      let rest := integrateForces r1 fs
      (rest.1, f1 :: rest.2)

/-- Iterates n physics ticks of the force integration over a rect and its
pending force list. -/
def physForceTicks : Nat → tRect × List tForce → tRect × List tForce
  | 0, st => st
  | n + 1, st => physForceTicks n (integrateForces st.1 st.2)

/-- Rect displaced by n applications of force f; helper for stating the force
lifecycle theorem. -/
def rectShift (r : tRect) (f : tForce) (n : Nat) : tRect :=
  { r with tCtx := { r.tCtx with
      fX := r.tCtx.fX + (n : Rat) * (f.x * f.dSpeed),
      fY := r.tCtx.fY + (n : Rat) * (f.y * f.dSpeed) } }

theorem rectShift_zero (r : tRect) (f : tForce) : rectShift r f 0 = r := by
  cases r with
  | mk ctx fr => simp [rectShift]

theorem vApplyForce_iTimes (r : tRect) (f : tForce) (t : Int) :
    vApplyForce r { f with iTimes := t } = vApplyForce r f := rfl

theorem vApplyForce_rectShift (r : tRect) (f : tForce) (n : Nat) :
    vApplyForce (rectShift r f n) f = rectShift r f (n + 1) := by
  simp only [vApplyForce, rectShift, tRect.mk.injEq, tContext2D.mk.injEq,
    and_true, true_and]
  constructor <;> (push_cast; ring)

theorem physForceTicks_add (a b : Nat) (st : tRect × List tForce) :
    physForceTicks (a + b) st = physForceTicks b (physForceTicks a st) := by
  induction a generalizing st with
  | zero => rw [Nat.zero_add]; rfl
  | succ a ih =>
    rw [Nat.add_right_comm]
    show physForceTicks (a + b) (integrateForces st.1 st.2) = _
    rw [ih]
    rfl

theorem physForceTicks_empty (n : Nat) (r : tRect) :
    physForceTicks n (r, []) = (r, []) := by
  induction n with
  | zero => rfl
  | succ n ih => simpa [physForceTicks, integrateForces] using ih

theorem rectShift_succ (r : tRect) (f : tForce) (n : Nat) :
    rectShift (vApplyForce r f) f n = rectShift r f (n + 1) := by
  simp only [rectShift, vApplyForce, tRect.mk.injEq, tContext2D.mk.injEq,
    and_true, true_and]
  constructor <;> (push_cast; ring)

theorem rectShift_iTimes (r : tRect) (f : tForce) (n : Nat) (t : Int) :
    rectShift r { f with iTimes := t } n = rectShift r f n := rfl

theorem physForceTicks_single_nonneg :
    ∀ (n : Nat) (f : tForce) (k : Nat) (r : tRect), f.iTimes = (k : Int) →
      n ≤ k →
      physForceTicks n (r, [f]) =
        (rectShift r f n, [{ f with iTimes := ((k - n : Nat) : Int) }]) := by
  intro n
  induction n with
  | zero =>
    intro f k r hk _
    simp only [physForceTicks, rectShift_zero, Nat.sub_zero]
    rw [← hk]
  | succ n ih =>
    intro f k r hk hn
    have hkpos : 0 < f.iTimes := by omega
    have hne : ¬ f.iTimes = 0 := by omega
    have hstep : integrateForces r [f] =
        (vApplyForce r f, [{ f with iTimes := f.iTimes - 1 }]) := by
      simp [integrateForces, hne, hkpos]
    have h1 : ({ f with iTimes := f.iTimes - 1 } : tForce).iTimes =
        ((k - 1 : Nat) : Int) := by
      simp only
      omega
    have h2 : n ≤ k - 1 := by omega
    show physForceTicks n (integrateForces r [f]) = _
    rw [hstep, ih { f with iTimes := f.iTimes - 1 } (k - 1) (vApplyForce r f)
      h1 h2]
    rw [rectShift_iTimes, rectShift_succ]
    have harith : ((k - 1 - n : Nat) : Int) = ((k - (n + 1) : Nat) : Int) := by
      omega
    rw [harith]

theorem physForceTicks_single_negTimes :
    ∀ (n : Nat) (f : tForce) (r : tRect), f.iTimes < 0 →
      physForceTicks n (r, [f]) = (rectShift r f n, [f]) := by
  intro n
  induction n with
  | zero => intro f r _; simp [physForceTicks, rectShift_zero]
  | succ n ih =>
    intro f r hf
    have hne : ¬ f.iTimes = 0 := by omega
    have hpos : ¬ 0 < f.iTimes := by omega
    have hstep : integrateForces r [f] = (vApplyForce r f, [f]) := by
      simp [integrateForces, hne, hpos]
    show physForceTicks n (integrateForces r [f]) = _
    rw [hstep, ih f (vApplyForce r f) hf, rectShift_succ]

/-- C4 counterexample: a force with iTimes = 1 is still in the pending list
after the tick in which it received its first application - only its counter
dropped to 0 - contradicting removal after exactly k = 1 applications; it is
removed on the second tick, after a second application that moves the rect
again. -/
theorem force_iTimes_one_survives_first_application :
    (integrateForces ⟨⟨0, 0, 1, 1⟩, ⟨4, 4⟩⟩ [⟨1, 0, 1, 5, 1⟩]).2 =
      [⟨1, 0, 1, 5, 0⟩] ∧
    (physForceTicks 1 (⟨⟨0, 0, 1, 1⟩, ⟨4, 4⟩⟩, [⟨1, 0, 1, 5, 1⟩])).1.tCtx.fX
      = 1 ∧
    (physForceTicks 2 (⟨⟨0, 0, 1, 1⟩, ⟨4, 4⟩⟩, [⟨1, 0, 1, 5, 1⟩])).2 = [] ∧
    (physForceTicks 2 (⟨⟨0, 0, 1, 1⟩, ⟨4, 4⟩⟩, [⟨1, 0, 1, 5, 1⟩])).1.tCtx.fX
      = 2 := by
  refine ⟨rfl, ?_, rfl, ?_⟩ <;>
    norm_num [physForceTicks, integrateForces, vApplyForce]

/-- C4 amended: each physics tick applies every pending force of a Dynamic
body to the position (position += direction * speed); a force with
iTimes = k ≥ 0 is applied on k + 1 consecutive ticks and removed after exactly
k + 1 applications - so iTimes = 0 does mean removal after exactly one
application, while iTimes = k > 0 means removal after k + 1 (not k)
applications - and a force with iTimes < 0 is never removed by the integration
step. -/
theorem force_integration_lifecycle (r : tRect) (f : tForce) :
    (∀ k : Nat, f.iTimes = (k : Int) →
      (∀ n, n ≤ k → physForceTicks n (r, [f]) =
        (rectShift r f n, [{ f with iTimes := ((k - n : Nat) : Int) }])) ∧
      (∀ n, k + 1 ≤ n →
        physForceTicks n (r, [f]) = (rectShift r f (k + 1), []))) ∧
    (f.iTimes < 0 → ∀ n, physForceTicks n (r, [f]) = (rectShift r f n, [f])) := by
  constructor
  · intro k hk
    refine ⟨fun n hn => physForceTicks_single_nonneg n f k r hk hn, ?_⟩
    intro n hn
    have hfull : physForceTicks (k + 1) (r, [f]) =
        (rectShift r f (k + 1), []) := by
      rw [physForceTicks_add k 1,
        physForceTicks_single_nonneg k f k r hk (le_refl k)]
      show integrateForces (rectShift r f k)
        [{ f with iTimes := ((k - k : Nat) : Int) }] = _
      have hz : ((k - k : Nat) : Int) = 0 := by omega
      rw [hz]
      have : ({ f with iTimes := (0 : Int) } : tForce).iTimes = 0 := rfl
      simp only [integrateForces, this, if_pos]
      rw [vApplyForce_iTimes, vApplyForce_rectShift]
    have hdecomp : n = (k + 1) + (n - (k + 1)) := by omega
    rw [hdecomp, physForceTicks_add, hfull, physForceTicks_empty]
  · intro hf n
    exact physForceTicks_single_negTimes n f r hf

/-- Witness for C4 amended at a force with iTimes = 2 pushing a unit rect
right at unit speed: after two ticks the force is still pending with counter
0, after three ticks it is gone with the rect moved three units, and a force
with iTimes = -1 survives nine ticks. -/
theorem force_integration_lifecycle_witness :
    physForceTicks 2 (⟨⟨0, 0, 1, 1⟩, ⟨4, 4⟩⟩, [⟨1, 0, 1, 5, 2⟩]) =
      (rectShift ⟨⟨0, 0, 1, 1⟩, ⟨4, 4⟩⟩ ⟨1, 0, 1, 5, 2⟩ 2,
        [⟨1, 0, 1, 5, 0⟩]) ∧
    physForceTicks 3 (⟨⟨0, 0, 1, 1⟩, ⟨4, 4⟩⟩, [⟨1, 0, 1, 5, 2⟩]) =
      (rectShift ⟨⟨0, 0, 1, 1⟩, ⟨4, 4⟩⟩ ⟨1, 0, 1, 5, 2⟩ 3, []) ∧
    physForceTicks 9 (⟨⟨0, 0, 1, 1⟩, ⟨4, 4⟩⟩, [⟨1, 0, 1, 5, -1⟩]) =
      (rectShift ⟨⟨0, 0, 1, 1⟩, ⟨4, 4⟩⟩ ⟨1, 0, 1, 5, -1⟩ 9,
        [⟨1, 0, 1, 5, -1⟩]) := by
  have h2 := (force_integration_lifecycle ⟨⟨0, 0, 1, 1⟩, ⟨4, 4⟩⟩
    ⟨1, 0, 1, 5, 2⟩).1 2 rfl
  have hneg := (force_integration_lifecycle ⟨⟨0, 0, 1, 1⟩, ⟨4, 4⟩⟩
    ⟨1, 0, 1, 5, -1⟩).2 (by decide) 9
  refine ⟨?_, ?_, hneg⟩
  · have := h2.1 2 (by decide)
    simpa using this
  · exact h2.2 3 (by decide)

/-- Collider label from scene.h: an axis-aligned box, the id of the owning
physics controller and the collision group tag. -/
structure tColliderLabel where
  x : Rat
  y : Rat
  w : Rat
  h : Rat
  uColliderId : Nat
  uCollidersGroup : Nat
deriving Repr, DecidableEq

/-- AABB overlap test checkCollision (physics.c): the boxes overlap unless a
is completely to the left of, to the right of, above or below b. -/
def checkCollision (a b : tColliderLabel) : Bool :=
  ! (decide (a.x + a.w ≤ b.x) || decide (a.x ≥ b.x + b.w) ||
     decide (a.y + a.h ≤ b.y) || decide (a.y ≥ b.y + b.h))

theorem checkCollision_true_iff (a b : tColliderLabel) :
    checkCollision a b = true ↔
      ¬ (a.x + a.w ≤ b.x ∨ b.x + b.w ≤ a.x ∨
         a.y + a.h ≤ b.y ∨ b.y + b.h ≤ a.y) := by
  simp only [checkCollision, not_or, ge_iff_le, Bool.not_eq_eq_eq_not,
    Bool.not_true, Bool.or_eq_false_iff, decide_eq_false_iff_not, not_le]
  constructor
  · intro h
    obtain ⟨⟨⟨h1, h2⟩, h3⟩, h4⟩ := h
    exact ⟨by linarith, by linarith, by linarith, by linarith⟩
  · intro h
    obtain ⟨h1, h2, h3, h4⟩ := h
    exact ⟨⟨⟨by linarith, by linarith⟩, by linarith⟩, by linarith⟩

/-- C6: the AABB overlap test is symmetric - checkCollision a b equals
checkCollision b a for all collider boxes - and every non-degenerate box (with
positive width and height) overlaps itself. -/
theorem checkCollision_symm_and_self (a b : tColliderLabel) :
    checkCollision a b = checkCollision b a ∧
    (0 < a.w → 0 < a.h → checkCollision a a = true) := by
  constructor
  · rw [Bool.eq_iff_iff, checkCollision_true_iff, checkCollision_true_iff]
    tauto
  · intro hw hh
    rw [checkCollision_true_iff]
    push_neg
    refine ⟨by linarith, by linarith, by linarith, by linarith⟩

/-- Witness for C6: a concrete 10 by 10 box overlaps itself. -/
theorem checkCollision_symm_and_self_witness :
    checkCollision ⟨0, 0, 10, 10, 1, 0⟩ ⟨0, 0, 10, 10, 1, 0⟩ = true :=
  (checkCollision_symm_and_self ⟨0, 0, 10, 10, 1, 0⟩ ⟨0, 0, 10, 10, 1, 0⟩).2
    (by norm_num) (by norm_num)

/-- Physical body kind from physics.h. -/
inductive ePhysicalBodyType
  | DYNAMIC
  | STATIC
  | COLLIDER
deriving Repr, DecidableEq

/-- Physics controller record from physics.h, reduced to the fields the
handler reads and writes: underlying controller id, collision group, the
affected rect, body kind, the pending force list and the currently-colliding
list. -/
structure tPhysController where
  uCtrlId : Nat
  uCollidersGroup : Nat
  tRct : tRect
  eBodyType : ePhysicalBodyType
  tAdditionalForces : List tForce
  lCurrentlyCollides : List tColliderLabel
deriving Repr, DecidableEq

/-- Collider label refresh loop at the top of __vPhysicsControllerInternal
(physics.c): the scene collider list is walked with each visited label copied
into the local tCol; at the first label whose uColliderId equals the body
controller id the stored label is overwritten from the current rect transform
and frame size and the walk stops - so the local tCol keeps the pre-update,
stale value of the own label. Returns the captured stale label (none when the
id is absent from the scene) and the updated scene list. -/
def updateOwnLabel (rct : tRect) (uCtrlId : Nat) :
    List tColliderLabel → Option tColliderLabel × List tColliderLabel
  | [] => (none, [])
  | c :: cs =>
    if c.uColliderId = uCtrlId then
      (some c,
        { c with x := rct.tCtx.fX, y := rct.tCtx.fY,
                 w := rct.tCtx.fScaleX * (rct.tFr.uWidth : Rat),
                 h := rct.tCtx.fScaleY * (rct.tFr.uHeight : Rat) } :: cs)
    else
      let rest := updateOwnLabel rct uCtrlId cs
      (rest.1, c :: rest.2)

/-- Collision scan of __vPhysicsControllerInternal (physics.c): every scene
collider label sharing the body group, whose id differs from the captured own
label and whose box overlaps the captured own box, is pushed to the front of
the accumulator, which the caller seeds with the lCurrentlyCollides list as it
already stands - the code contains no reset of that list. -/
def scanCollisions (tCol : tColliderLabel) (grp : Nat) :
    List tColliderLabel → List tColliderLabel → List tColliderLabel
  | [], acc => acc
  | c2 :: cs, acc =>
    if c2.uCollidersGroup = grp then
      if c2.uColliderId ≠ tCol.uColliderId ∧ checkCollision tCol c2 = true then
        scanCollisions tCol grp cs (c2 :: acc)
      else scanCollisions tCol grp cs acc
    else scanCollisions tCol grp cs acc

/-- Physics controller handler __vPhysicsControllerInternal (physics.c): it
re-arms its own invoke flag (a dispatch-level effect, not part of this state),
refreshes the own collider label in the scene list while capturing the stale
pre-update value as tCol, then for a DYNAMIC body integrates the pending force
list into the rect, and for DYNAMIC and STATIC bodies (the switch falls
through) scans the same-group scene colliders, appending every overlapping one
to lCurrentlyCollides; a COLLIDER body does neither. When the own label is
absent the C code would scan against an indeterminate stale local; that case
is modelled as skipping the scan and the theorems below only use scenes
holding the own label. Returns the updated scene collider list and the updated
physics controller. -/
def __vPhysicsControllerInternal (scene : List tColliderLabel)
    (phys : tPhysController) : List tColliderLabel × tPhysController :=
  let u := updateOwnLabel phys.tRct phys.uCtrlId scene
  match u.1 with
  | none => (u.2, phys)
  | some tCol =>
    match phys.eBodyType with
    | .DYNAMIC =>
      let rf := integrateForces phys.tRct phys.tAdditionalForces
      (u.2, { phys with
                tRct := rf.1,
                tAdditionalForces := rf.2,
                lCurrentlyCollides :=
                  scanCollisions tCol phys.uCollidersGroup u.2
                    phys.lCurrentlyCollides })
    | .STATIC =>
      (u.2, { phys with
                lCurrentlyCollides :=
                  scanCollisions tCol phys.uCollidersGroup u.2
                    phys.lCurrentlyCollides })
    | .COLLIDER => (u.2, phys)

/-- bPhysicsCurrentlyCollides (physics.c): true when the lCurrentlyCollides
list is non-empty. -/
def bPhysicsCurrentlyCollides (phys : tPhysController) : Bool :=
  decide (0 < phys.lCurrentlyCollides.length)

theorem physInternal_static (scene : List tColliderLabel)
    (phys : tPhysController) (tCol : tColliderLabel)
    (scene2 : List tColliderLabel)
    (hu : updateOwnLabel phys.tRct phys.uCtrlId scene = (some tCol, scene2))
    (hb : phys.eBodyType = .STATIC) :
    __vPhysicsControllerInternal scene phys =
      (scene2, { phys with
                   lCurrentlyCollides :=
                     scanCollisions tCol phys.uCollidersGroup scene2
                       phys.lCurrentlyCollides }) := by
  simp [__vPhysicsControllerInternal, hu, hb]

/-- C5 evaluated at the failing input: a STATIC body (id 1, group 0, box 10
by 10 at the origin) shares the scene with an overlapping group-0 collider
(id 2 at x = 5); after the overlapping tick AnyCurrentCollision is true, and
when the other box has moved fully outside (to x = 100, overlap now false) the
next tick still reports true and the currently-colliding list still holds the
stale entry: the code never resets the list before the scan, so the claimed
per-tick reset does not happen. -/
theorem physics_collides_list_never_reset :
    bPhysicsCurrentlyCollides (__vPhysicsControllerInternal
      [⟨0, 0, 10, 10, 1, 0⟩, ⟨5, 0, 10, 10, 2, 0⟩]
      ⟨1, 0, ⟨⟨0, 0, 1, 1⟩, ⟨10, 10⟩⟩, .STATIC, [], []⟩).2 = true ∧
    checkCollision ⟨0, 0, 10, 10, 1, 0⟩ ⟨100, 0, 10, 10, 2, 0⟩ = false ∧
    bPhysicsCurrentlyCollides (__vPhysicsControllerInternal
      [⟨0, 0, 10, 10, 1, 0⟩, ⟨100, 0, 10, 10, 2, 0⟩]
      (__vPhysicsControllerInternal
        [⟨0, 0, 10, 10, 1, 0⟩, ⟨5, 0, 10, 10, 2, 0⟩]
        ⟨1, 0, ⟨⟨0, 0, 1, 1⟩, ⟨10, 10⟩⟩, .STATIC, [], []⟩).2).2 = true ∧
    (__vPhysicsControllerInternal
      [⟨0, 0, 10, 10, 1, 0⟩, ⟨100, 0, 10, 10, 2, 0⟩]
      (__vPhysicsControllerInternal
        [⟨0, 0, 10, 10, 1, 0⟩, ⟨5, 0, 10, 10, 2, 0⟩]
        ⟨1, 0, ⟨⟨0, 0, 1, 1⟩, ⟨10, 10⟩⟩, .STATIC, [], []⟩).2).2.lCurrentlyCollides
      = [⟨5, 0, 10, 10, 2, 0⟩] := by
  have hu1 : updateOwnLabel (⟨⟨0, 0, 1, 1⟩, ⟨10, 10⟩⟩ : tRect) 1
      [⟨0, 0, 10, 10, 1, 0⟩, ⟨5, 0, 10, 10, 2, 0⟩] =
      (some ⟨0, 0, 10, 10, 1, 0⟩,
        [⟨0, 0, 10, 10, 1, 0⟩, ⟨5, 0, 10, 10, 2, 0⟩]) := by
    norm_num [updateOwnLabel]
  have hscan1 : scanCollisions ⟨0, 0, 10, 10, 1, 0⟩ 0
      [⟨0, 0, 10, 10, 1, 0⟩, ⟨5, 0, 10, 10, 2, 0⟩] [] =
      [⟨5, 0, 10, 10, 2, 0⟩] := by
    norm_num [scanCollisions, checkCollision]
  have h1 : __vPhysicsControllerInternal
      [⟨0, 0, 10, 10, 1, 0⟩, ⟨5, 0, 10, 10, 2, 0⟩]
      ⟨1, 0, ⟨⟨0, 0, 1, 1⟩, ⟨10, 10⟩⟩, .STATIC, [], []⟩ =
      ([⟨0, 0, 10, 10, 1, 0⟩, ⟨5, 0, 10, 10, 2, 0⟩],
        ⟨1, 0, ⟨⟨0, 0, 1, 1⟩, ⟨10, 10⟩⟩, .STATIC, [],
          [⟨5, 0, 10, 10, 2, 0⟩]⟩) := by
    rw [physInternal_static _ _ ⟨0, 0, 10, 10, 1, 0⟩
      [⟨0, 0, 10, 10, 1, 0⟩, ⟨5, 0, 10, 10, 2, 0⟩] hu1 rfl]
    simp [hscan1]
  have hu2 : updateOwnLabel (⟨⟨0, 0, 1, 1⟩, ⟨10, 10⟩⟩ : tRect) 1
      [⟨0, 0, 10, 10, 1, 0⟩, ⟨100, 0, 10, 10, 2, 0⟩] =
      (some ⟨0, 0, 10, 10, 1, 0⟩,
        [⟨0, 0, 10, 10, 1, 0⟩, ⟨100, 0, 10, 10, 2, 0⟩]) := by
    norm_num [updateOwnLabel]
  have hsep : checkCollision ⟨0, 0, 10, 10, 1, 0⟩ ⟨100, 0, 10, 10, 2, 0⟩
      = false := by
    norm_num [checkCollision]
  have hscan2 : scanCollisions ⟨0, 0, 10, 10, 1, 0⟩ 0
      [⟨0, 0, 10, 10, 1, 0⟩, ⟨100, 0, 10, 10, 2, 0⟩]
      [⟨5, 0, 10, 10, 2, 0⟩] = [⟨5, 0, 10, 10, 2, 0⟩] := by
    norm_num [scanCollisions, checkCollision]
  have h2 : __vPhysicsControllerInternal
      [⟨0, 0, 10, 10, 1, 0⟩, ⟨100, 0, 10, 10, 2, 0⟩]
      ⟨1, 0, ⟨⟨0, 0, 1, 1⟩, ⟨10, 10⟩⟩, .STATIC, [],
        [⟨5, 0, 10, 10, 2, 0⟩]⟩ =
      ([⟨0, 0, 10, 10, 1, 0⟩, ⟨100, 0, 10, 10, 2, 0⟩],
        ⟨1, 0, ⟨⟨0, 0, 1, 1⟩, ⟨10, 10⟩⟩, .STATIC, [],
          [⟨5, 0, 10, 10, 2, 0⟩]⟩) := by
    rw [physInternal_static _ _ ⟨0, 0, 10, 10, 1, 0⟩
      [⟨0, 0, 10, 10, 1, 0⟩, ⟨100, 0, 10, 10, 2, 0⟩] hu2 rfl]
    simp [hscan2]
  rw [h1]
  refine ⟨rfl, hsep, ?_, ?_⟩
  · rw [h2]
    rfl
  · rw [h2]

end Feather
